import Mathlib

/-
Verification of the cnc-masm middleware core: the liveattrs aggregation engine
(src/liveattrs/actions.go), the job registry helpers (jobs package), the
index-update endpoint (src/liveattrs/actions.go, src/liveattrs/idxjob.go),
the startup restart sweep (src/masm.go) and the corpus info helper
(corpus package).  Go maps keyed by strings are embedded as association
lists; time values are embedded as Int nanoseconds; fallible calls return
Except String.
-/

namespace Masm

/-! ## Association-list helpers (embedding of Go map operations) -/

/-- Lookup of a key in an association list; embeds a Go map read m[k]. -/
def alookup {β : Type} (k : String) : List (String × β) → Option β
  | [] => none
  | (k2, v) :: t => if k = k2 then some v else alookup k t

/-- Replacement of the value stored under a key; together with the
append case below this embeds a Go map write m[k] = v. -/
def assocReplace {β : Type} (l : List (String × β)) (k : String) (v : β) :
    List (String × β) :=
  l.map (fun p => if p.1 = k then (k, v) else p)

/-- Go map write m[k] = v: replace the stored value when the key is present,
append a fresh binding otherwise. -/
def assocSet {β : Type} (l : List (String × β)) (k : String) (v : β) :
    List (String × β) :=
  match alookup k l with
  | some _ => assocReplace l k v
  | none => l ++ [(k, v)]

/-- Set-style insertion used by collections.Set.Add: a member is added only
once. -/
def setAdd (l : List String) (x : String) : List String :=
  if x ∈ l then l else l ++ [x]

/-- Fold with early error return; embeds a Go loop whose body may abort the
iteration with an error (for example qbuilder.DataIterator.Iterate). -/
def efoldl {σ α : Type} (f : σ → α → Except String σ) : σ → List α → Except String σ
  | s, [] => Except.ok s
  | s, a :: t =>
    match f s a with
    | Except.error e => Except.error e
    | Except.ok s2 => efoldl f s2 t

/-! ## Aggregation response model (liveattrs/request/response via its uses in
src/liveattrs/actions.go) -/

/-- One value entry of an attribute value list (response.ListedValue). -/
structure ListedValue where
  id : String
  shortLabel : String
  label : String
  count : Int
  grouping : Int
deriving DecidableEq, Repr

/-- Value stored in QueryAns.AttrValues for one attribute: either an
enumerated value list or a bare accumulated position count.  This embeds the
any-typed map values of response.QueryAns as the two cases the code switches
on. -/
inductive AttrAccum where
  | listOf : List ListedValue → AttrAccum
  | cnt : Int → AttrAccum
deriving DecidableEq, Repr

/-- Aggregation response (response.QueryAns). -/
structure QueryAns where
  poscount : Int
  attrValues : List (String × AttrAccum)
deriving DecidableEq, Repr

/-! ## Bibliography duplicate grouping (groupBibItems, src/liveattrs/actions.go
lines 84-112) -/

/-- One step of the loop body of groupBibItems for a single list item.  The Go
code stores pointers, so the bound variable val aliases the stored map entry:
the Count update adds the stored entry's own count to itself and the merged
item's count is never read. -/
def groupBibStep (m : List (String × ListedValue)) (item : ListedValue) :
    List (String × ListedValue) :=
  match alookup item.label m with
  | some e =>
    let e1 : ListedValue := { e with count := e.count + e.count, grouping := e.grouping + 1 }
    let e2 : ListedValue := if e1.grouping > 1 then { e1 with id := "@" ++ e1.label } else e1
    assocReplace m item.label e2
  | none =>
    let e2 : ListedValue := if item.grouping > 1 then { item with id := "@" ++ item.label } else item
    m ++ [(item.label, e2)]

/-- groupBibItems: groups the bibliography-label value list by display label
and rewrites the stored list from the grouping map.  When the stored value is
not a list the function returns its input unchanged (the type assertion in the
Go code fails and the function returns). -/
def groupBibItems (ans : QueryAns) (bibLabel : String) : QueryAns :=
  match alookup bibLabel ans.attrValues with
  | some (AttrAccum.listOf entries) =>
    let grouped := (entries.foldl groupBibStep []).map Prod.snd
    { ans with attrValues := assocSet ans.attrValues bibLabel (AttrAccum.listOf grouped) }
  | _ => ans

/-- Call site of groupBibItems in getAttrValues (src/liveattrs/actions.go
lines 570-572): the grouping step runs iff the corpus flag BibGroupDuplicates
is positive. -/
def applyBibGrouping (bibGroupDuplicates : Int) (bibLabel : String) (ans : QueryAns) : QueryAns :=
  if bibGroupDuplicates > 0 then groupBibItems ans bibLabel else ans

/-! ## Streaming aggregation (getAttrValues, src/liveattrs/actions.go
lines 504-567) -/

/-- Constant dfltMaxAttrListSize from src/liveattrs/actions.go. -/
def dfltMaxAttrListSize : Nat := 30

/-- Constant shortLabelMaxLength from src/liveattrs/actions.go. -/
def shortLabelMaxLength : Nat := 30

/-- Modelled from the spec: the shortenVal helper is outside src/; shortened
labels are produced by truncating to a fixed character budget. -/
def shortenVal (s : String) (maxLength : Nat) : String :=
  if s.length ≤ maxLength then s else s.take maxLength

/-- Modelled from the spec: db.ImportKey is outside src/; it converts between
the dotted and the underscore attribute-name encodings.  Attribute names are
modelled in a single canonical encoding, making the conversion the
identity. -/
def ImportKey (k : String) : String := k

/-- Modelled from the spec: db.ExportKey is outside src/; like ImportKey it is
the identity in the single canonical attribute-name encoding. -/
def ExportKey (k : String) : String := k

/-- One result row streamed from the backing store
(qbuilder.ResultRow): a position count and one raw value per
queried attribute. -/
structure ResultRow where
  poscount : Int
  attrs : List (String × String)
deriving DecidableEq, Repr

/-- Accumulation state of the streaming loop: the running total position count
and tmpAns, the per-attribute map from value identity to accumulated
entry. -/
structure AggState where
  poscount : Int
  tmp : List (String × List (String × ListedValue))
deriving DecidableEq, Repr

/-- In-place count update of the entry stored under a value identity. -/
def bumpUpd : List (String × ListedValue) → String → Int → List (String × ListedValue)
  | [], _, _ => []
  | (k, e) :: t, ident, pc =>
    if k = ident then (k, { e with count := e.count + pc }) :: bumpUpd t ident pc
    else (k, e) :: bumpUpd t ident pc

/-- Inner accumulation for one attribute value of one row: on a repeated value
identity only the stored count grows by the row position count; on a fresh
identity the prepared entry is stored with its count set to the row position
count (src/liveattrs/actions.go lines 541-548). -/
def bumpEntry (m : List (String × ListedValue)) (ident : String) (nv : ListedValue)
    (pc : Int) : List (String × ListedValue) :=
  match alookup ident m with
  | some _ => bumpUpd m ident pc
  | none => m ++ [(ident, { nv with count := pc })]

/-- Update of tmpAns for one attribute value of one row: the per-attribute map
is created on first use (src/liveattrs/actions.go lines 537-540), then
bumpEntry applies. -/
def tmpInsert (tmp : List (String × List (String × ListedValue))) (colKey ident : String)
    (nv : ListedValue) (pc : Int) : List (String × List (String × ListedValue)) :=
  match alookup colKey tmp with
  | some m => assocReplace tmp colKey (bumpEntry m ident nv pc)
  | none => tmp ++ [(colKey, bumpEntry [] ident nv pc)]

/-- Body of the inner loop over one row's attribute values
(src/liveattrs/actions.go lines 520-557).  The switch on the stored value type
succeeds with the list case exactly for the initialized search attributes and
hits the error default otherwise; the value identity is the co-occurring
bibliography id value for the bibliography label attribute and the raw value
itself for every other attribute. -/
def processAttr (searchAttrs : List String) (bibLabel bibID : String) (row : ResultRow)
    (st : AggState) (kv : String × String) : Except String AggState :=
  let colKey := ExportKey kv.1
  if colKey ∈ searchAttrs then
    let valIdent := if colKey = bibLabel then (alookup bibID row.attrs).getD "" else kv.2
    let attrVal : ListedValue :=
      { id := valIdent, shortLabel := shortenVal kv.2 shortLabelMaxLength,
        label := kv.2, count := 0, grouping := 1 }
    Except.ok { st with tmp := tmpInsert st.tmp colKey valIdent attrVal row.poscount }
  else
    Except.error ("invalid value type for attr " ++ colKey ++ " for data iterator")

/-- Processing of one streamed row (src/liveattrs/actions.go lines 518-559):
the row position count is added to the running total first, then every
attribute value of the row is accumulated. -/
def processRow (searchAttrs : List String) (bibLabel bibID : String)
    (st : AggState) (row : ResultRow) : Except String AggState :=
  efoldl (processAttr searchAttrs bibLabel bibID row)
    { st with poscount := st.poscount + row.poscount } row.attrs

/-- Aggregation core of getAttrValues (src/liveattrs/actions.go lines
504-567): every search attribute starts with an empty value list, the rows are
streamed through processRow, and afterwards the tmpAns accumulation map is
flattened into the per-attribute value lists (the AddListedValue loop in lines
563-567).  An iteration error is returned as the function error. -/
def getAttrValuesAgg (searchAttrs : List String) (bibLabel bibID : String)
    (rows : List ResultRow) : Except String QueryAns :=
  match efoldl (processRow searchAttrs bibLabel bibID) { poscount := 0, tmp := [] } rows with
  | Except.error e => Except.error e
  | Except.ok st =>
    Except.ok
      { poscount := st.poscount,
        attrValues := searchAttrs.map
          (fun a => (a, AttrAccum.listOf (((alookup a st.tmp).getD []).map Prod.snd))) }

/-- Modelled from the spec: response.ExportAttrValues is outside src/; the
export post-processing collapses the list of an attribute that is not marked
for expansion and exceeds the maximum size to a bare count, and never touches
the total position count. -/
def ExportAttrValues (ans : QueryAns) (expandAttrs : List String) (maxSize : Nat) : QueryAns :=
  { ans with
    attrValues := ans.attrValues.map (fun p =>
      match p.2 with
      | AttrAccum.listOf lv =>
        if p.1 ∉ expandAttrs ∧ maxSize < lv.length then
          (p.1, AttrAccum.cnt ((lv.map (fun e => e.count)).sum))
        else (p.1, AttrAccum.listOf lv)
      | x => (p.1, x)) }

/-! ## Specification-side aggregation functions (for the statement of the
aggregation claim; these follow the words of the spec, not the code) -/

/-- Value identity contributed by a row for one attribute, following the spec:
the co-occurring bibliography id value when the attribute is the bibliography
label, the raw value itself otherwise; none when the row has no value for the
attribute. -/
def rowIdentOf (bibLabel bibID attr : String) (r : ResultRow) : Option String :=
  match alookup attr r.attrs with
  | none => none
  | some dv => some (if attr = bibLabel then (alookup bibID r.attrs).getD "" else dv)

/-- Accumulation of the distinct value identities contributed by one row. -/
def identStep (bibLabel bibID attr : String) (acc : List String) (r : ResultRow) :
    List String :=
  match rowIdentOf bibLabel bibID attr r with
  | none => acc
  | some v => if v ∈ acc then acc else acc ++ [v]

/-- Distinct value identities of an attribute over a row stream, in order of
first occurrence. -/
def identsOf (bibLabel bibID attr : String) (rows : List ResultRow) : List String :=
  rows.foldl (identStep bibLabel bibID attr) []

/-- Sum of the position counts of the rows sharing one value identity for one
attribute. -/
def specCountOf (bibLabel bibID attr v : String) (rows : List ResultRow) : Int :=
  ((rows.filter (fun r => decide (rowIdentOf bibLabel bibID attr r = some v))).map
    (fun r => r.poscount)).sum

/-- Sum of the position counts of all rows of a stream. -/
def sumPoscounts (rows : List ResultRow) : Int :=
  (rows.map (fun r => r.poscount)).sum

/-- Value list stored for one attribute of an aggregation answer; an empty
list when the attribute holds a bare count or is absent. -/
def attrListOf (a : QueryAns) (attr : String) : List ListedValue :=
  match alookup attr a.attrValues with
  | some (AttrAccum.listOf l) => l
  | _ => []

/-- First entry of a value list carrying a given value identity. -/
def findById (l : List ListedValue) (v : String) : Option ListedValue :=
  l.find? (fun e => decide (e.id = v))

/-- Effect of processing one row on the accumulation map of one fixed
attribute: nothing when the row has no value for the attribute, otherwise the
bumpEntry update at the row's value identity. -/
def perAttrStep (bibLabel bibID attr : String) (m : List (String × ListedValue))
    (r : ResultRow) : List (String × ListedValue) :=
  match alookup attr r.attrs with
  | none => m
  | some dv =>
    bumpEntry m (if attr = bibLabel then (alookup bibID r.attrs).getD "" else dv)
      { id := (if attr = bibLabel then (alookup bibID r.attrs).getD "" else dv),
        shortLabel := shortenVal dv shortLabelMaxLength, label := dv,
        count := 0, grouping := 1 }
      r.poscount

/-- Accumulation map of one fixed attribute over a whole row stream. -/
def perAttrFold (bibLabel bibID attr : String) (m : List (String × ListedValue))
    (rows : List ResultRow) : List (String × ListedValue) :=
  rows.foldl (perAttrStep bibLabel bibID attr) m

/-- Tells whether some row of the stream contributes a given value identity
for a given attribute. -/
def hasIdent (bibLabel bibID attr v : String) (rows : List ResultRow) : Bool :=
  rows.any (fun r => decide (rowIdentOf bibLabel bibID attr r = some v))

/-- Raw attribute value of the first row contributing a given value identity;
it determines the label of the accumulated entry. -/
def firstValFor (bibLabel bibID attr v : String) (rows : List ResultRow) : Option String :=
  (rows.find? (fun r => decide (rowIdentOf bibLabel bibID attr r = some v))).bind
    (fun r => alookup attr r.attrs)

/-- Entry the spec predicts for a value identity that occurs in the stream:
labelled from the first contributing row, counted over all contributing rows,
grouping one. -/
def freshSpecEntry (bibLabel bibID attr v : String) (rows : List ResultRow) : ListedValue :=
  { id := v,
    shortLabel := shortenVal ((firstValFor bibLabel bibID attr v rows).getD "") shortLabelMaxLength,
    label := (firstValFor bibLabel bibID attr v rows).getD "",
    count := specCountOf bibLabel bibID attr v rows, grouping := 1 }

/-! ## Job records (jobs package, src/liveattrs/idxjob.go, corpus.JobInfo) -/

/-- Job type discriminator of liveattrs extraction jobs (constant jobType in
src/liveattrs/actions.go). -/
def jobType : String := "liveattrs"

/-- Liveattrs extraction job record (liveattrs.LiveAttrsJobInfo, as used by
src/liveattrs/actions.go; its finished flag is modelled from the spec since
the method file is outside src/).  The immutable extraction configuration is
kept as an opaque token. -/
structure LiveAttrsJob where
  id : String
  jtype : String
  corpusId : String
  start : Int
  update : Int
  error : Option String
  numRestarts : Nat
  finished : Bool
  args : String
deriving DecidableEq, Repr

/-- Index-update job record (liveattrs.IdxUpdateJobInfo,
src/liveattrs/idxjob.go). -/
structure IdxUpdateJob where
  id : String
  jtype : String
  corpusId : String
  start : Int
  update : Int
  finished : Bool
  error : Option String
  numRestarts : Nat
  maxColumns : Int
  usedIndexes : List String
  removedIndexes : List String
deriving DecidableEq, Repr

/-- Corpus data synchronization job record (corpus.JobInfo); it carries no
restart counter and its finished state is a non-zero finish time. -/
structure SyncJob where
  id : String
  jtype : String
  corpusId : String
  start : Int
  finish : Int
  error : String
  resultOk : Bool
deriving DecidableEq, Repr

/-- Polymorphic job record (the closed variant set registered with gob in
src/masm.go). -/
inductive Job where
  | la : LiveAttrsJob → Job
  | idx : IdxUpdateJob → Job
  | sync : SyncJob → Job
deriving DecidableEq, Repr

/-- GetCorpus of the GeneralJobInfo interface. -/
def Job.getCorpus : Job → String
  | Job.la j => j.corpusId
  | Job.idx j => j.corpusId
  | Job.sync j => j.corpusId

/-- GetType of the GeneralJobInfo interface. -/
def Job.getType : Job → String
  | Job.la j => j.jtype
  | Job.idx j => j.jtype
  | Job.sync j => j.jtype

/-- GetStartDT of the GeneralJobInfo interface, as Int nanoseconds. -/
def Job.getStartDT : Job → Int
  | Job.la j => j.start
  | Job.idx j => j.start
  | Job.sync j => j.start

/-- IsFinished of the GeneralJobInfo interface: the finished flag for the
liveattrs and index-update variants, a non-zero finish time for the sync
variant. -/
def Job.isFinished : Job → Bool
  | Job.la j => j.finished
  | Job.idx j => j.finished
  | Job.sync j => decide (j.finish ≠ 0)

/-- Retention window of clearOldJobs: 168 hours in nanoseconds
(time.Duration(168) multiplied by time.Hour). -/
def jobRetentionNs : Int := 168 * 3600 * 1000000000

/-- Step of the clearOldJobs loop: a record whose start lies more than the
retention window before the current time is deleted from the map. -/
def clearOldJobsStep (curr : Int) (acc : List (String × Job)) (kv : String × Job) :
    List (String × Job) :=
  if curr - kv.2.getStartDT > jobRetentionNs then
    acc.filter (fun e => !(e.1 == kv.1))
  else acc

/-- clearOldJobs (jobs package, src/unnamed/part_001 lines 96-103): iterates
over the entries of the job map and deletes the stale ones in place. -/
def clearOldJobs (curr : Int) (data : List (String × Job)) : List (String × Job) :=
  data.foldl (clearOldJobsStep curr) data

/-- FindUnfinishedJobOfType (jobs package, src/unnamed/part_001 lines
107-114): the first job matching corpus, type and not-finished, in iteration
order. -/
def FindUnfinishedJobOfType : List (String × Job) → String → String → Option Job
  | [], _, _ => none
  | (_, v) :: rest, corpusID, jtype =>
    if v.getCorpus = corpusID ∧ v.getType = jtype ∧ v.isFinished = false then some v
    else FindUnfinishedJobOfType rest corpusID jtype

/-- FindJob inner loop (jobs package, src/unnamed/part_001 lines 116-130):
scans the map; a second prefix match returns nil immediately. -/
def findJobGo (jobID : String) : List (String × Job) → Option Job → Option Job
  | [], ans => ans
  | (ident, job) :: rest, ans =>
    if jobID.isPrefixOf ident then
      match ans with
      | some _ => none
      | none => findJobGo jobID rest (some job)
    else findJobGo jobID rest ans

/-- FindJob (jobs package, src/unnamed/part_001 lines 116-130). -/
def FindJob (syncJobs : List (String × Job)) (jobID : String) : Option Job :=
  findJobGo jobID syncJobs none

/-- Value of FindJob demanded by the spec sentence: the unique job whose id
starts with the prefix when exactly one exists, nothing otherwise. -/
def uniqueMatchValue : List (String × Job) → Option Job
  | [(_, j)] => some j
  | _ => none

/-! ## Restart of persisted jobs (src/liveattrs/actions.go lines 819-836,
startup sweep in src/masm.go lines 179-205) -/

/-- RestartLiveAttrsJob (src/liveattrs/actions.go lines 819-832): refuses when
the restart counter reached the configured maximum; otherwise stamps fresh
start and update times, increments the counter and resubmits the job through
createDataFromJobStatus.  The extractOk flag stands for a successful start of
the external vert-tagextract process. -/
def RestartLiveAttrsJob (maxNumRestarts : Nat) (now : Int) (extractOk : Bool)
    (j : LiveAttrsJob) : Except String LiveAttrsJob :=
  if j.numRestarts ≥ maxNumRestarts then
    Except.error ("cannot restart job " ++ j.id ++ " - max. num. of restarts reached")
  else
    let j2 : LiveAttrsJob :=
      { j with start := now, numRestarts := j.numRestarts + 1, update := now }
    if extractOk then Except.ok j2 else Except.error "failed to start vert-tagextract"

/-- Result of one restart attempt: the resubmitted job, when any. -/
def restartDetachedJob (maxNumRestarts : Nat) (now : Int) (extractOk : Bool) :
    Job → Except String (Option Job)
  | Job.la j => (RestartLiveAttrsJob maxNumRestarts now extractOk j).map
      (fun j2 => some (Job.la j2))
  | Job.idx _ => Except.ok none
  | Job.sync j => Except.ok (some (Job.sync j))

/-- Startup sweep over the persisted detached jobs (src/masm.go lines
179-205): finished jobs are skipped, every unfinished one gets one restart
attempt and is then cleared from the detached registry whether the attempt
succeeded or not.  The result is the list of resubmitted jobs and the list of
jobs still detached. -/
def startupRestart (maxNumRestarts : Nat) (now : Int) (extractOk : Bool)
    (detached : List Job) : List Job × List Job :=
  detached.foldl
    (fun acc dj =>
      if dj.isFinished then (acc.1, acc.2 ++ [dj])
      else
        match restartDetachedJob maxNumRestarts now extractOk dj with
        | Except.ok (some j2) => (acc.1 ++ [j2], acc.2)
        | Except.ok none => acc
        | Except.error _ => acc)
    ([], [])

/-! ## Conflict check of the extraction create endpoint
(src/liveattrs/actions.go lines 336-369) -/

/-- Tail of the Create handler after configuration resolution
(src/liveattrs/actions.go lines 336-369): a registered unfinished job of the
same corpus and type rejects the request with 409 and leaves the registry
unchanged; otherwise the new job is registered and 201 returned, unless the
external extraction process fails to start (500, registry unchanged). -/
def createLiveAttrsTail (registry : List (String × Job)) (corpusID jobID : String)
    (now : Int) (args : String) (extractOk : Bool) : Nat × List (String × Job) :=
  match FindUnfinishedJobOfType registry corpusID jobType with
  | some _ => (409, registry)
  | none =>
    if extractOk then
      (201, registry ++ [(jobID,
        Job.la { id := jobID, jtype := jobType, corpusId := corpusID, start := now,
                 update := now, error := none, numRestarts := 0, finished := false,
                 args := args })])
    else (500, registry)

/-! ## Index-update endpoint (UpdateIndexes, src/liveattrs/actions.go lines
787-817; compact view in src/liveattrs/idxjob.go lines 77-91) -/

/-- Compact job view (jobs.JobInfoCompact, src/unnamed/part_001 lines
134-142). -/
structure JobInfoCompact where
  id : String
  corpusId : String
  jtype : String
  start : Int
  update : Int
  finished : Bool
  ok : Bool
deriving DecidableEq, Repr

/-- CompactVersion of an index-update job (src/liveattrs/idxjob.go lines
77-91): ok is true exactly when the error slot is empty. -/
def IdxUpdateJob.compactVersion (j : IdxUpdateJob) : JobInfoCompact :=
  { id := j.id, corpusId := j.corpusId, jtype := j.jtype, start := j.start,
    update := j.update, finished := j.finished, ok := j.error.isNone }

/-- Response body written by the UpdateIndexes handler: a JSON error payload,
a full index-update job record, or a compact job view. -/
inductive HandlerBody where
  | errMsg : String → HandlerBody
  | idxJobFull : IdxUpdateJob → HandlerBody
  | idxJobCompact : JobInfoCompact → HandlerBody
deriving DecidableEq, Repr

/-- Discriminator telling whether a response body is the compact view. -/
def bodyIsCompact : HandlerBody → Bool
  | HandlerBody.idxJobCompact _ => true
  | _ => false

/-- Initial job record built by the UpdateIndexes handler
(src/liveattrs/actions.go lines 806-814). -/
def newIdxUpdateJob (jobID : String) (now : Int) (corpusID : String) (maxColumns : Int) :
    IdxUpdateJob :=
  { id := jobID, jtype := "liveattrs-idx-update", corpusId := corpusID, start := now,
    update := now, finished := false, error := none, numRestarts := 0,
    maxColumns := maxColumns, usedIndexes := [], removedIndexes := [] }

/-- Digit accumulation of the integer parser below. -/
def atoiNatAux : List Char → Nat → Option Nat
  | [], acc => some acc
  | c :: t, acc => if c.isDigit then atoiNatAux t (acc * 10 + (c.toNat - 48)) else none

/-- Integer parsing mirroring strconv.Atoi on the strings the handler reads:
an optional sign followed by at least one decimal digit. -/
def atoi (s : String) : Option Int :=
  match s.toList with
  | [] => none
  | c :: t =>
    if c = '-' then
      match t with
      | [] => none
      | _ => (atoiNatAux t 0).map (fun n => -(n : Int))
    else if c = '+' then
      match t with
      | [] => none
      | _ => (atoiNatAux t 0).map (fun n => (n : Int))
    else (atoiNatAux (c :: t) 0).map (fun n => (n : Int))

/-- UpdateIndexes handler (src/liveattrs/actions.go lines 787-817): an absent
maxColumns query argument (the empty string, as url.Values.Get reports it)
gives 400, an unparsable one gives 422, and otherwise the handler starts the
job and answers 201 with the newly built job record as the body.  The
generated job id and the current time are passed in. -/
def UpdateIndexes (jobID : String) (now : Int) (corpusID : String)
    (maxColumnsArg : String) : Nat × HandlerBody :=
  if maxColumnsArg = "" then (400, HandlerBody.errMsg "missing maxColumns argument")
  else
    match atoi maxColumnsArg with
    | none => (422, HandlerBody.errMsg "invalid syntax")
    | some maxColumns => (201, HandlerBody.idxJobFull (newIdxUpdateJob jobID now corpusID maxColumns))

/-! ## Query payload and the autocomplete rewrite (getAttrValues prologue,
src/liveattrs/actions.go lines 461-490) -/

/-- Constraint stored for one attribute of a query: a single pattern string or
a listing of currently selected values (the two payload shapes the code
distinguishes). -/
inductive AttrSel where
  | strv : String → AttrSel
  | listing : List String → AttrSel
deriving DecidableEq, Repr

/-- Aggregation query payload (query.Payload as used by
src/liveattrs/actions.go). -/
structure QueryPayload where
  attrs : List (String × AttrSel)
  autocompleteAttr : String
  aligned : List String
  maxAttrListSize : Nat
deriving DecidableEq, Repr

/-- Modelled from the spec: query.Attrs.GetListingOf is outside src/; it
returns the list of currently selected values of an attribute and fails when
the stored constraint is not a listing. -/
def GetListingOf (attrs : List (String × AttrSel)) (k : String) :
    Except String (List String) :=
  match alookup k attrs with
  | some (AttrSel.listing l) => Except.ok l
  | _ => Except.error ("cannot create listing of " ++ k)

/-- Modelled from the spec: query.Attrs.AttrIsRange is outside src/; a
range-style constraint spans multiple discrete values rather than a single
equality. -/
def AttrIsRange : AttrSel → Bool
  | AttrSel.listing l => 2 ≤ l.length
  | AttrSel.strv _ => false

/-- Attribute-set resolution and autocomplete rewrite of getAttrValues
(src/liveattrs/actions.go lines 474-490): a named autocomplete attribute is
forced into the search set and the expand set and its constraint is rewritten
to the contains pattern built from its first selected value; afterwards every
range-constrained attribute is added to the expand set.  An empty selected
value listing surfaces as an error (the Go code would fail on the index
access). -/
def resolveAutocomplete (srchAttrs expandAttrs : List String)
    (attrs : List (String × AttrSel)) (acAttr : String) :
    Except String (List String × List String × List (String × AttrSel)) :=
  let base :=
    if acAttr = "" then Except.ok (srchAttrs, expandAttrs, attrs)
    else
      match GetListingOf attrs acAttr with
      | Except.error e => Except.error e
      | Except.ok [] => Except.error "index out of range"
      | Except.ok (v0 :: _) =>
        Except.ok (setAdd srchAttrs (ImportKey acAttr), setAdd expandAttrs (ImportKey acAttr),
          assocSet attrs acAttr (AttrSel.strv ("%" ++ v0 ++ "%")))
  match base with
  | Except.error e => Except.error e
  | Except.ok (s2, e2, at2) =>
    Except.ok (s2,
      at2.foldl (fun ex kv => if AttrIsRange kv.2 then setAdd ex (ImportKey kv.1) else ex) e2,
      at2)

/-! ## Query endpoint with result cache (Query, src/liveattrs/actions.go lines
587-615) -/

/-- Outcome written by the Query handler: the aggregation answer or an HTTP
error status. -/
inductive QueryOutcome where
  | body : QueryAns → QueryOutcome
  | httpErr : Nat → QueryOutcome
deriving DecidableEq, Repr

/-- Cache plus usage-recording state threaded through the Query handler.  The
cache embeds cache.EmptyQueryCache (modelled from the spec: keyed by corpus id
and query, newest binding first); the usage log collects the records sent to
the usage channel. -/
structure QueryState where
  cache : List ((String × QueryPayload) × QueryAns)
  usageLog : List (String × QueryPayload)
deriving DecidableEq, Repr

/-- Cache read, keyed by corpus id and structurally equal query payload. -/
def cacheGet (cache : List ((String × QueryPayload) × QueryAns)) (c : String)
    (q : QueryPayload) : Option QueryAns :=
  (cache.find? (fun e => decide (e.1.1 = c ∧ e.1.2 = q))).map Prod.snd

/-- Query handler (src/liveattrs/actions.go lines 587-615), after request
decoding and corpus info loading: a cache hit answers immediately; a miss runs
the aggregation engine (passed as a function), records one usage entry and
stores the response in the cache; an engine failure answers 500 and leaves the
state untouched.  The third component counts engine invocations. -/
def runQuery (engine : String → QueryPayload → Except String QueryAns)
    (st : QueryState) (c : String) (q : QueryPayload) :
    QueryOutcome × QueryState × Nat :=
  match cacheGet st.cache c q with
  | some ans => (QueryOutcome.body ans, st, 0)
  | none =>
    match engine c q with
    | Except.error _ => (QueryOutcome.httpErr 500, st, 1)
    | Except.ok ans =>
      (QueryOutcome.body ans,
        { cache := ((c, q), ans) :: st.cache, usageLog := st.usageLog ++ [(c, q)] }, 1)

/-! ## Corpus info helper (getCorpusInfo, src/unnamed/part_000 lines 123-157) -/

/-- File-related value as reported by the corpus package
(corpus.FileMappedValue, restricted to the fields getCorpusInfo sets). -/
structure FileMappedValue where
  value : String
  lastModified : Option String
  fileExists : Bool
  size : Int
deriving DecidableEq, Repr

/-- Indexed corpus data record (corpus.Data). -/
structure CorpusData where
  size : Int
  path : FileMappedValue
  manateeError : Option String
deriving DecidableEq, Repr

/-- Results of the Manatee and filesystem calls getCorpusInfo performs, passed
in as an oracle (the mango bindings and the fs helpers are outside src/).  The
corpus size call yields a value together with an optional error, because the
Go code assigns the returned value before inspecting the error. -/
structure CorpusInfoOracle where
  corpusSize : Int × Option String
  confPATH : Except String String
  cleanPath : String → String
  fileMtime : String → Except String String
  isDir : String → Except String Bool
  fileSize : String → Except String Int

/-- getCorpusInfo (src/unnamed/part_000 lines 123-157): a Manatee failure on
the corpus size read is attached to the returned Data value and not returned
as the function error; every later configuration or filesystem failure is
returned as the function error. -/
def getCorpusInfo (o : CorpusInfoOracle) : Except String CorpusData :=
  let sz := o.corpusSize.1
  match o.corpusSize.2 with
  | some e =>
    Except.ok { size := sz,
                path := { value := "", lastModified := none, fileExists := false, size := 0 },
                manateeError := some e }
  | none =>
    match o.confPATH with
    | Except.error e => Except.error e
    | Except.ok corpDataPath =>
      let dataDirPath := o.cleanPath corpDataPath
      match o.fileMtime dataDirPath with
      | Except.error e => Except.error e
      | Except.ok mtimeR =>
        match o.isDir dataDirPath with
        | Except.error e => Except.error e
        | Except.ok dirFlag =>
          match o.fileSize dataDirPath with
          | Except.error e => Except.error e
          | Except.ok fsz =>
            Except.ok { size := sz,
                        path := { value := dataDirPath, lastModified := some mtimeR,
                                  fileExists := dirFlag, size := fsz },
                        manateeError := none }

/-- Behaviour of the corpus info helper as the claim words it: a corpus size
failure is reported in-band inside a non-nil Data value with the size call
result kept, while later failures abort with the error; written independently
of getCorpusInfo for comparison. -/
def getCorpusInfoClaimed (o : CorpusInfoOracle) : Except String CorpusData :=
  match o.corpusSize, o.confPATH with
  | (sz, some e), _ =>
    Except.ok { size := sz,
                path := { value := "", lastModified := none, fileExists := false, size := 0 },
                manateeError := some e }
  | (_, none), Except.error e => Except.error e
  | (sz, none), Except.ok p =>
    match o.fileMtime (o.cleanPath p), o.isDir (o.cleanPath p), o.fileSize (o.cleanPath p) with
    | Except.error e, _, _ => Except.error e
    | Except.ok _, Except.error e, _ => Except.error e
    | Except.ok _, Except.ok _, Except.error e => Except.error e
    | Except.ok mtimeR, Except.ok dirFlag, Except.ok fsz =>
      Except.ok { size := sz,
                  path := { value := o.cleanPath p, lastModified := some mtimeR,
                            fileExists := dirFlag, size := fsz },
                  manateeError := none }

/-! ## Concrete sample values used by witnesses and counterexamples -/

/-- Resubmitted job carried by a restart result, when any. -/
def resubmittedOf : Except String (Option Job) → Option Job
  | Except.ok o => o
  | Except.error _ => none

/-- Two bibliography-label entries with distinct identities and the same
label. -/
def c1First : ListedValue :=
  { id := "b1", shortLabel := "Book", label := "Book", count := 3, grouping := 1 }

/-- Second entry sharing the label of c1First. -/
def c1Second : ListedValue :=
  { id := "b2", shortLabel := "Book", label := "Book", count := 5, grouping := 1 }

/-- Aggregation answer holding the two duplicate-label entries. -/
def c1Ans : QueryAns :=
  { poscount := 8, attrValues := [("doc_title", AttrAccum.listOf [c1First, c1Second])] }

/-- Entry produced by the grouping step for the two entries above. -/
def c1Merged : ListedValue :=
  { id := "@Book", shortLabel := "Book", label := "Book", count := 6, grouping := 2 }

/-- Unfinished index-update job with a restart counter below any positive
maximum. -/
def c2IdxJob : IdxUpdateJob :=
  { id := "idx1", jtype := "liveattrs-idx-update", corpusId := "c1", start := 0,
    update := 0, finished := false, error := none, numRestarts := 0, maxColumns := 10,
    usedIndexes := [], removedIndexes := [] }

/-- Row stream of the aggregation example: positions 3 and 2 for value x and 5
for value y of attribute a. -/
def c8Rows : List ResultRow :=
  [{ poscount := 3, attrs := [("a", "x")] },
   { poscount := 2, attrs := [("a", "x")] },
   { poscount := 5, attrs := [("a", "y")] }]

/-- Sample query payload. -/
def c3Qry : QueryPayload :=
  { attrs := [("doc.author", AttrSel.listing ["Karel"])], autocompleteAttr := "",
    aligned := [], maxAttrListSize := 0 }

/-- Sample aggregation answer. -/
def c3Ans : QueryAns := { poscount := 7, attrValues := [] }

/-- Aggregation engine that always succeeds with the sample answer. -/
def c3Engine : String → QueryPayload → Except String QueryAns :=
  fun _ _ => Except.ok c3Ans

/-- Recently started job for the cleanup witness. -/
def c6Fresh : Job :=
  Job.la { id := "f", jtype := "liveattrs", corpusId := "c", start := 500, update := 500,
           error := none, numRestarts := 0, finished := true, args := "" }

/-- Long finished but stale job for the cleanup witness. -/
def c6Old : Job :=
  Job.sync { id := "o", jtype := "sync", corpusId := "c", start := 0, finish := 3,
             error := "", resultOk := true }

/-- Job map holding the two records above. -/
def c6Data : List (String × Job) := [("f", c6Fresh), ("o", c6Old)]

/-- Unfinished liveattrs job registered for corpus corp1. -/
def c5Job : LiveAttrsJob :=
  { id := "job1", jtype := "liveattrs", corpusId := "corp1", start := 0, update := 0,
    error := none, numRestarts := 0, finished := false, args := "cfg" }

/-- Registry holding the unfinished job above. -/
def c5Registry : List (String × Job) := [("job1", Job.la c5Job)]

/-! ## Unfolding lemmas for the embedding helpers -/

@[simp] theorem alookup_nil {β : Type} (k : String) : alookup (β := β) k [] = none := rfl

@[simp] theorem alookup_cons {β : Type} (k k2 : String) (v : β) (t : List (String × β)) :
    alookup k ((k2, v) :: t) = if k = k2 then some v else alookup k t := rfl

@[simp] theorem efoldl_nil {σ α : Type} (f : σ → α → Except String σ) (s : σ) :
    efoldl f s [] = Except.ok s := rfl

@[simp] theorem efoldl_cons {σ α : Type} (f : σ → α → Except String σ) (s : σ)
    (a : α) (t : List α) :
    efoldl f s (a :: t) =
      match f s a with
      | Except.error e => Except.error e
      | Except.ok s2 => efoldl f s2 t := rfl

/-! ## Claim theorems -/

/-- C1: on an aggregation response whose bibliography-label list holds exactly
two entries with distinct identities and the same label, the duplicate
grouping step (run because the flag is positive) produces one entry with
grouping 2 and identity "@" prepended to the label, but its count is 6 — the
first count doubled — and not 8, the sum of the two counts the claim and the
spec demand; with the flag not positive the answer is unchanged.  The Go
statement grouping[item.Label].Count += val.Count adds the stored count to
itself instead of adding the second entry's count. -/
theorem C1_bib_grouping_code_eval :
    applyBibGrouping 1 "doc_title" c1Ans =
      { poscount := 8, attrValues := [("doc_title", AttrAccum.listOf [c1Merged])] }
    ∧ c1Merged.grouping = 2
    ∧ c1Merged.id = "@" ++ c1First.label
    ∧ c1Merged.count = 6
    ∧ c1First.count + c1Second.count = 8
    ∧ applyBibGrouping 0 "doc_title" c1Ans = c1Ans := by
  decide

/-- C2 counterexample: an unfinished index-update job whose restart counter is
strictly below the maximum is not resubmitted at all — the restart operation
(RestartIdxUpdateJob, src/liveattrs/actions.go lines 834-836) does nothing and
reports success, so no job with an incremented counter exists, refuting the
claim for the index-update variant. -/
theorem C2_restart_counterexample :
    restartDetachedJob 2 100 true (Job.idx c2IdxJob) = Except.ok none
    ∧ resubmittedOf (restartDetachedJob 2 100 true (Job.idx c2IdxJob)) = none
    ∧ c2IdxJob.numRestarts = 0
    ∧ decide (c2IdxJob.numRestarts < 2) = true
    ∧ c2IdxJob.finished = false :=
  ⟨rfl, rfl, rfl, rfl, rfl⟩

/-- C2 (amended): a persisted unfinished liveattrs job below the restart
maximum is resubmitted with the same id and the counter incremented by one,
and at the maximum the restart fails with an error and the job is cleared
without resubmission; an unfinished index-update job is never resubmitted and
never incremented — its restart is a success-reporting no-op and the job is
cleared from the registry regardless of the counter. -/
theorem C2_restart_amended (maxNumRestarts : Nat) (now : Int) (jla : LiveAttrsJob)
    (jidx : IdxUpdateJob) :
    restartDetachedJob maxNumRestarts now true (Job.la jla) =
      (if jla.numRestarts < maxNumRestarts then
        Except.ok (some (Job.la { jla with start := now, numRestarts := jla.numRestarts + 1, update := now }))
      else Except.error ("cannot restart job " ++ jla.id ++ " - max. num. of restarts reached"))
    ∧ restartDetachedJob maxNumRestarts now true (Job.idx jidx) = Except.ok none
    ∧ startupRestart maxNumRestarts now true [Job.la jla] =
        (if jla.finished then ([], [Job.la jla])
         else if jla.numRestarts < maxNumRestarts then
           ([Job.la { jla with start := now, numRestarts := jla.numRestarts + 1, update := now }], [])
         else ([], []))
    ∧ startupRestart maxNumRestarts now true [Job.idx jidx] =
        (if jidx.finished then ([], [Job.idx jidx]) else ([], [])) := by
  refine ⟨?_, rfl, ?_, ?_⟩
  · by_cases h : jla.numRestarts < maxNumRestarts
    · simp [restartDetachedJob, RestartLiveAttrsJob, Nat.not_le.mpr h, h, Except.map]
    · simp [restartDetachedJob, RestartLiveAttrsJob, Nat.le_of_not_lt h, h, Except.map]
  · by_cases hf : jla.finished
    · simp [startupRestart, Job.isFinished, hf]
    · by_cases h : jla.numRestarts < maxNumRestarts
      · simp [startupRestart, Job.isFinished, hf, restartDetachedJob, RestartLiveAttrsJob,
          Nat.not_le.mpr h, h, Except.map]
      · simp [startupRestart, Job.isFinished, hf, restartDetachedJob, RestartLiveAttrsJob,
          Nat.le_of_not_lt h, h, Except.map]
  · by_cases hf : jidx.finished
    · simp [startupRestart, Job.isFinished, hf]
    · simp [startupRestart, Job.isFinished, hf, restartDetachedJob]

/-- C3: a request whose key misses the cache runs the aggregation engine
exactly once, appends exactly one usage record and stores the response; the
identical request issued next hits the cache and returns the same body with
zero engine invocations and the state — usage log included — unchanged. -/
theorem C3_query_cache (engine : String → QueryPayload → Except String QueryAns)
    (st : QueryState) (c : String) (q : QueryPayload) (ans : QueryAns)
    (hmiss : cacheGet st.cache c q = none) (hok : engine c q = Except.ok ans) :
    runQuery engine st c q =
      (QueryOutcome.body ans,
        { cache := ((c, q), ans) :: st.cache, usageLog := st.usageLog ++ [(c, q)] }, 1)
    ∧ runQuery engine
        { cache := ((c, q), ans) :: st.cache, usageLog := st.usageLog ++ [(c, q)] } c q =
      (QueryOutcome.body ans,
        { cache := ((c, q), ans) :: st.cache, usageLog := st.usageLog ++ [(c, q)] }, 0) := by
  constructor
  · unfold runQuery
    rw [hmiss, hok]
  · unfold runQuery
    simp [cacheGet, List.find?]

/-- C3 witness: the two-request protocol at a concrete engine, corpus and
query. -/
theorem C3_query_cache_witness :
    runQuery c3Engine { cache := [], usageLog := [] } "corp" c3Qry =
      (QueryOutcome.body c3Ans,
        { cache := [(("corp", c3Qry), c3Ans)], usageLog := [("corp", c3Qry)] }, 1)
    ∧ runQuery c3Engine
        { cache := [(("corp", c3Qry), c3Ans)], usageLog := [("corp", c3Qry)] } "corp" c3Qry =
      (QueryOutcome.body c3Ans,
        { cache := [(("corp", c3Qry), c3Ans)], usageLog := [("corp", c3Qry)] }, 0) :=
  C3_query_cache c3Engine { cache := [], usageLog := [] } "corp" c3Qry c3Ans rfl rfl

/-- C4 counterexample: at a concrete request carrying the valid integer
argument 5, the handler answers 201 with the full index-update job record as
the body, which is not the compact view projection the claim demands. -/
theorem C4_update_indexes_counterexample :
    UpdateIndexes "j1" 0 "c1" "5" =
      (201, HandlerBody.idxJobFull (newIdxUpdateJob "j1" 0 "c1" 5))
    ∧ bodyIsCompact (UpdateIndexes "j1" 0 "c1" "5").2 = false
    ∧ (newIdxUpdateJob "j1" 0 "c1" 5).compactVersion =
      { id := "j1", corpusId := "c1", jtype := "liveattrs-idx-update", start := 0,
        update := 0, finished := false, ok := true } := by
  decide

/-- C4 (amended): a request with a valid integer maxColumns argument is
answered 201 with the created job record itself — the full record with args
and result, not the compact view — and a request with the argument absent is
answered 400. -/
theorem C4_update_indexes_amended (jobID : String) (now : Int) (corpusID : String)
    (arg : String) (mc : Int) (h : atoi arg = some mc) :
    UpdateIndexes jobID now corpusID arg =
      (201, HandlerBody.idxJobFull (newIdxUpdateJob jobID now corpusID mc))
    ∧ bodyIsCompact (UpdateIndexes jobID now corpusID arg).2 = false
    ∧ UpdateIndexes jobID now corpusID "" =
      (400, HandlerBody.errMsg "missing maxColumns argument") := by
  have hne : arg ≠ "" := by
    intro he
    rw [he] at h
    exact Option.noConfusion h
  refine ⟨?_, ?_, rfl⟩
  · unfold UpdateIndexes
    rw [if_neg hne, h]
  · unfold UpdateIndexes
    rw [if_neg hne, h]
    rfl

/-- C4 witness for the amended claim at a concrete negative integer
argument. -/
theorem C4_update_indexes_amended_witness :
    UpdateIndexes "j2" 5 "kor" "-7" =
      (201, HandlerBody.idxJobFull (newIdxUpdateJob "j2" 5 "kor" (-7)))
    ∧ bodyIsCompact (UpdateIndexes "j2" 5 "kor" "-7").2 = false
    ∧ UpdateIndexes "j2" 5 "kor" "" =
      (400, HandlerBody.errMsg "missing maxColumns argument") :=
  C4_update_indexes_amended "j2" 5 "kor" "-7" (-7) rfl

/-- C5: while the registry holds an unfinished job of the same corpus and the
liveattrs type, the create request is rejected with 409 and the registry is
unchanged. -/
theorem C5_create_conflict (registry : List (String × Job)) (corpusID jobID : String)
    (now : Int) (args : String) (extractOk : Bool)
    (h : (FindUnfinishedJobOfType registry corpusID jobType).isSome = true) :
    createLiveAttrsTail registry corpusID jobID now args extractOk = (409, registry) := by
  rcases hfind : FindUnfinishedJobOfType registry corpusID jobType with _ | j
  · rw [hfind] at h
    exact absurd h (by simp)
  · simp [createLiveAttrsTail, hfind]

/-- C5 witness: the rejection at a concrete registry holding one unfinished
liveattrs job for the same corpus. -/
theorem C5_create_conflict_witness :
    createLiveAttrsTail c5Registry "corp1" "job2" 5 "cfg" true = (409, c5Registry) :=
  C5_create_conflict c5Registry "corp1" "job2" 5 "cfg" true (by decide)

/-- C10: the corpus info helper reports a Manatee corpus-size failure in-band
— a present Data value with ManateeError set and no function error — while
every subsequent configuration or filesystem failure is returned as the
function error with no result, exactly as the claim words it. -/
theorem C10_corpus_info (o : CorpusInfoOracle) : getCorpusInfo o = getCorpusInfoClaimed o := by
  obtain ⟨⟨sz, e?⟩, cp, cl, mt, idir, fsz⟩ := o
  cases e? with
  | some e => rfl
  | none =>
    cases cp with
    | error e => rfl
    | ok p =>
      unfold getCorpusInfo getCorpusInfoClaimed
      dsimp only
      cases mt (cl p) with
      | error e => rfl
      | ok mtimeR =>
        cases idir (cl p) with
        | error e => rfl
        | ok dirFlag =>
          cases fsz (cl p) with
          | error e => rfl
          | ok n => rfl

/-! ## Helper lemmas for the registry claims -/

theorem findJobGo_some (p : String) : ∀ (l : List (String × Job)) (j : Job),
    findJobGo p l (some j) =
      if l.any (fun kv => p.isPrefixOf kv.1) then none else some j := by
  intro l
  induction l with
  | nil => intro j; simp [findJobGo]
  | cons hd t ih =>
    intro j
    obtain ⟨ident, job⟩ := hd
    rw [List.any_cons]
    by_cases hp : p.isPrefixOf ident
    · rw [show findJobGo p ((ident, job) :: t) (some j) = none by simp [findJobGo, hp]]
      rw [hp, Bool.true_or]
      simp
    · have hp2 : p.isPrefixOf ident = false := by simpa using hp
      rw [show findJobGo p ((ident, job) :: t) (some j) = findJobGo p t (some j) by
        simp [findJobGo, hp2]]
      rw [hp2, Bool.false_or, ih j]

theorem findJobGo_none (p : String) : ∀ l : List (String × Job),
    findJobGo p l none = uniqueMatchValue (l.filter (fun kv => p.isPrefixOf kv.1)) := by
  intro l
  induction l with
  | nil => rfl
  | cons hd t ih =>
    obtain ⟨ident, job⟩ := hd
    by_cases hp : p.isPrefixOf ident
    · rw [show findJobGo p ((ident, job) :: t) none = findJobGo p t (some job) by
        simp [findJobGo, hp]]
      rw [findJobGo_some p t job]
      by_cases ha : t.any (fun kv => p.isPrefixOf kv.1)
      · rw [if_pos ha]
        rcases hft : t.filter (fun kv => p.isPrefixOf kv.1) with _ | ⟨hd2, tl2⟩
        · exfalso
          rw [List.any_eq_true] at ha
          obtain ⟨x, hx, hpx⟩ := ha
          have : x ∈ t.filter (fun kv => p.isPrefixOf kv.1) := List.mem_filter.mpr ⟨hx, hpx⟩
          rw [hft] at this
          exact absurd this (List.not_mem_nil x)
        · simp [List.filter_cons, hp, hft, uniqueMatchValue]
      · have hft : t.filter (fun kv => p.isPrefixOf kv.1) = [] := by
          have ha2 : t.any (fun kv => p.isPrefixOf kv.1) = false := by
            simpa using ha
          rw [List.any_eq_false] at ha2
          rw [List.filter_eq_nil_iff]
          intro x hx
          exact ha2 x hx
        rw [if_neg ha, List.filter_cons, hft]
        simp [hp, uniqueMatchValue]
    · rw [show findJobGo p ((ident, job) :: t) none = findJobGo p t none by
        simp [findJobGo, hp]]
      simp [List.filter_cons, hp, ih]

theorem mem_clearOldJobsStep (curr : Int) (acc : List (String × Job)) (kv : String × Job)
    (k : String) (j : Job) :
    (k, j) ∈ clearOldJobsStep curr acc kv ↔
      ((k, j) ∈ acc ∧ (curr - kv.2.getStartDT > jobRetentionNs → k ≠ kv.1)) := by
  unfold clearOldJobsStep
  by_cases hold : curr - kv.2.getStartDT > jobRetentionNs
  · simp [hold, List.mem_filter]
  · simp [hold]

theorem mem_clear_foldl (curr : Int) : ∀ (l acc : List (String × Job)) (k : String) (j : Job),
    (k, j) ∈ l.foldl (clearOldJobsStep curr) acc ↔
      ((k, j) ∈ acc ∧ ∀ kv ∈ l, curr - kv.2.getStartDT > jobRetentionNs → k ≠ kv.1) := by
  intro l
  induction l with
  | nil => intro acc k j; simp
  | cons hd t ih =>
    intro acc k j
    rw [List.foldl_cons, ih, mem_clearOldJobsStep]
    simp only [List.forall_mem_cons]
    tauto

theorem nodupKeyVal {β : Type} : ∀ {l : List (String × β)}, (l.map Prod.fst).Nodup →
    ∀ {k : String} {a b : β}, (k, a) ∈ l → (k, b) ∈ l → a = b := by
  intro l
  induction l with
  | nil => intro _ k a b ha; exact absurd ha (List.not_mem_nil _)
  | cons hd t ih =>
    intro hnd k a b ha hb
    obtain ⟨k0, v0⟩ := hd
    rw [List.map_cons, List.nodup_cons] at hnd
    obtain ⟨hk0, hndt⟩ := hnd
    rcases List.mem_cons.mp ha with ha1 | ha2
    · rcases List.mem_cons.mp hb with hb1 | hb2
      · rw [Prod.mk.injEq] at ha1 hb1
        rw [ha1.2, hb1.2]
      · exfalso
        rw [Prod.mk.injEq] at ha1
        apply hk0
        rw [← ha1.1]
        exact List.mem_map.mpr ⟨(k, b), hb2, rfl⟩
    · rcases List.mem_cons.mp hb with hb1 | hb2
      · exfalso
        rw [Prod.mk.injEq] at hb1
        apply hk0
        rw [← hb1.1]
        exact List.mem_map.mpr ⟨(k, a), ha2, rfl⟩
      · exact ih hndt ha2 hb2

/-! ## Helper lemmas for assoc-list updates -/

theorem assocReplace_nil {β : Type} (k : String) (v : β) :
    assocReplace ([] : List (String × β)) k v = [] := rfl

theorem assocReplace_cons {β : Type} (k k2 : String) (u v : β) (t : List (String × β)) :
    assocReplace ((k2, u) :: t) k v =
      (if k2 = k then (k, v) else (k2, u)) :: assocReplace t k v := rfl

theorem alookup_assocReplace_self {β : Type} (k : String) (v : β) :
    ∀ l : List (String × β), (alookup k l).isSome = true →
      alookup k (assocReplace l k v) = some v := by
  intro l
  induction l with
  | nil => intro h; simp [alookup] at h
  | cons hd t ih =>
    intro h
    obtain ⟨k2, u⟩ := hd
    rw [assocReplace_cons]
    by_cases hk : k2 = k
    · rw [if_pos hk, alookup_cons, if_pos rfl]
    · rw [if_neg hk, alookup_cons, if_neg (fun h2 => hk h2.symm)]
      rw [alookup_cons, if_neg (fun h2 => hk h2.symm)] at h
      exact ih h

theorem alookup_append_ne {β : Type} (k k2 : String) (v : β) (hk : k ≠ k2) :
    ∀ l : List (String × β), alookup k (l ++ [(k2, v)]) = alookup k l := by
  intro l
  induction l with
  | nil => simp [alookup, hk]
  | cons hd t ih =>
    obtain ⟨k3, u⟩ := hd
    by_cases h3 : k = k3
    · simp [alookup, h3]
    · simp [alookup, h3, ih]

theorem alookup_assocReplace_ne {β : Type} (k k2 : String) (v : β) (hk : k ≠ k2) :
    ∀ l : List (String × β), alookup k (assocReplace l k2 v) = alookup k l := by
  intro l
  induction l with
  | nil => rfl
  | cons hd t ih =>
    obtain ⟨k3, u⟩ := hd
    rw [assocReplace_cons]
    by_cases h3 : k3 = k2
    · subst h3
      rw [if_pos rfl, alookup_cons, if_neg hk, alookup_cons, if_neg (fun h4 => hk (h4.trans rfl))]
      exact ih
    · rw [if_neg h3, alookup_cons, alookup_cons]
      by_cases h4 : k = k3
      · rw [if_pos h4, if_pos h4]
      · rw [if_neg h4, if_neg h4]
        exact ih

theorem alookup_assocSet_self {β : Type} (k : String) (v w : β) (l : List (String × β))
    (h : alookup k l = some w) : alookup k (assocSet l k v) = some v := by
  unfold assocSet
  rw [h]
  exact alookup_assocReplace_self k v l (by rw [h]; rfl)

theorem alookup_assocSet_ne {β : Type} (k k2 : String) (v : β) (l : List (String × β))
    (hk : k ≠ k2) : alookup k (assocSet l k2 v) = alookup k l := by
  unfold assocSet
  cases alookup k2 l with
  | none => exact alookup_append_ne k k2 v hk l
  | some u => exact alookup_assocReplace_ne k k2 v hk l

theorem setAdd_mem_self (l : List String) (x : String) : x ∈ setAdd l x := by
  unfold setAdd
  by_cases h : x ∈ l
  · simp [h]
  · simp [h]

theorem setAdd_mem_mono (l : List String) (x y : String) (h : y ∈ l) : y ∈ setAdd l x := by
  unfold setAdd
  by_cases hx : x ∈ l
  · simpa [hx]
  · simp [hx, h]

theorem expandFold_mem_mono (y : String) :
    ∀ (l : List (String × AttrSel)) (ex : List String), y ∈ ex →
      y ∈ l.foldl (fun ex kv => if AttrIsRange kv.2 then setAdd ex (ImportKey kv.1) else ex) ex := by
  intro l
  induction l with
  | nil => intro ex h; simpa
  | cons hd t ih =>
    intro ex h
    rw [List.foldl_cons]
    by_cases hr : AttrIsRange hd.2
    · rw [if_pos hr]
      exact ih _ (setAdd_mem_mono _ _ _ h)
    · rw [if_neg hr]
      exact ih _ h

/-! ## Claim theorems for the registry and the autocomplete rewrite -/

/-- C7: FindJob returns exactly the unique job whose id starts with the given
prefix when there is exactly one such job, and nothing when there is none or
more than one. -/
theorem C7_find_job (jobs : List (String × Job)) (p : String) :
    FindJob jobs p = uniqueMatchValue (jobs.filter (fun kv => p.isPrefixOf kv.1)) :=
  findJobGo_none p jobs

/-- C6: a record survives the cleanup sweep exactly when it was in the map and
its start lies at most the 168 hour retention window in the past; staleness is
judged on the start time only, never on the finished flag. -/
theorem C6_cleanup (curr : Int) (data : List (String × Job)) (k : String) (j : Job)
    (hnd : (data.map Prod.fst).Nodup) :
    (k, j) ∈ clearOldJobs curr data ↔
      ((k, j) ∈ data ∧ curr - j.getStartDT ≤ jobRetentionNs) := by
  unfold clearOldJobs
  rw [mem_clear_foldl]
  constructor
  · rintro ⟨hmem, hall⟩
    refine ⟨hmem, ?_⟩
    by_contra hgt
    rw [not_le] at hgt
    exact (hall (k, j) hmem hgt) rfl
  · rintro ⟨hmem, hle⟩
    refine ⟨hmem, ?_⟩
    intro kv hkv hold heq
    have hv : kv.2 = j := by
      have hkv2 : (k, kv.2) ∈ data := by
        rw [heq, Prod.mk.eta]
        exact hkv
      exact nodupKeyVal hnd hkv2 hmem
    rw [hv] at hold
    exact absurd hold (not_lt.mpr hle)

/-- C9: a query naming a non-empty autocomplete attribute with at least one
selected value gets that attribute added to the search set and the expand set
and its constraint rewritten to the contains pattern built from the first
selected value, while the constraint of any other attribute is left
unchanged. -/
theorem C9_autocomplete (srchAttrs expandAttrs : List String)
    (attrs : List (String × AttrSel)) (acAttr k v0 : String) (vs : List String)
    (hne : acAttr ≠ "") (hlist : alookup acAttr attrs = some (AttrSel.listing (v0 :: vs)))
    (hk : k ≠ acAttr) :
    ∃ s2 e2 at2,
      resolveAutocomplete srchAttrs expandAttrs attrs acAttr = Except.ok (s2, e2, at2)
      ∧ ImportKey acAttr ∈ s2
      ∧ ImportKey acAttr ∈ e2
      ∧ alookup acAttr at2 = some (AttrSel.strv ("%" ++ v0 ++ "%"))
      ∧ alookup k at2 = alookup k attrs := by
  unfold resolveAutocomplete GetListingOf
  rw [if_neg hne, hlist]
  refine ⟨_, _, _, rfl, setAdd_mem_self _ _, expandFold_mem_mono _ _ _ (setAdd_mem_self _ _), ?_, ?_⟩
  · exact alookup_assocSet_self acAttr _ _ attrs hlist
  · exact alookup_assocSet_ne k acAttr _ attrs hk

/-- C6 witness: the membership characterization at a concrete map holding one
fresh record and one stale record, read at the fresh one. -/
theorem C6_cleanup_witness :
    ("f", c6Fresh) ∈ clearOldJobs (jobRetentionNs + 100) c6Data ↔
      (("f", c6Fresh) ∈ c6Data ∧ (jobRetentionNs + 100) - c6Fresh.getStartDT ≤ jobRetentionNs) :=
  C6_cleanup (jobRetentionNs + 100) c6Data "f" c6Fresh (by decide)

/-- C9 witness: the autocomplete rewrite at a concrete query over doc.author
with selected value Karel. -/
theorem C9_autocomplete_witness :
    ∃ s2 e2 at2,
      resolveAutocomplete ["doc_year"] []
        [("doc.author", AttrSel.listing ["Karel"]), ("doc_year", AttrSel.strv "1990")]
        "doc.author" = Except.ok (s2, e2, at2)
      ∧ ImportKey "doc.author" ∈ s2
      ∧ ImportKey "doc.author" ∈ e2
      ∧ alookup "doc.author" at2 = some (AttrSel.strv ("%" ++ "Karel" ++ "%"))
      ∧ alookup "doc_year" at2 =
          alookup "doc_year"
            [("doc.author", AttrSel.listing ["Karel"]), ("doc_year", AttrSel.strv "1990")] :=
  C9_autocomplete ["doc_year"] []
    [("doc.author", AttrSel.listing ["Karel"]), ("doc_year", AttrSel.strv "1990")]
    "doc.author" "doc_year" "Karel" [] (by decide) rfl (by decide)

/-! ## Helper lemmas for the aggregation claim -/

theorem alookup_append_of_none {β : Type} (k : String) (v : β) :
    ∀ l : List (String × β), alookup k l = none → alookup k (l ++ [(k, v)]) = some v := by
  intro l
  induction l with
  | nil => intro _; simp [alookup]
  | cons hd t ih =>
    intro h
    obtain ⟨k2, u⟩ := hd
    rw [alookup_cons] at h
    by_cases hk : k = k2
    · rw [if_pos hk] at h
      exact absurd h (by simp)
    · rw [if_neg hk] at h
      rw [List.cons_append, alookup_cons, if_neg hk]
      exact ih h

theorem alookup_eq_none_of_not_mem {β : Type} (k : String) :
    ∀ l : List (String × β), k ∉ l.map Prod.fst → alookup k l = none := by
  intro l
  induction l with
  | nil => intro _; rfl
  | cons hd t ih =>
    intro h
    obtain ⟨k2, u⟩ := hd
    rw [List.map_cons, List.mem_cons] at h
    push_neg at h
    rw [alookup_cons, if_neg h.1]
    exact ih h.2

theorem alookup_isSome_iff_mem {β : Type} (k : String) :
    ∀ l : List (String × β), (alookup k l).isSome = true ↔ k ∈ l.map Prod.fst := by
  intro l
  induction l with
  | nil => simp [alookup]
  | cons hd t ih =>
    obtain ⟨k2, u⟩ := hd
    rw [alookup_cons, List.map_cons, List.mem_cons]
    by_cases hk : k = k2
    · simp [hk]
    · simp [hk, ih]

theorem alookup_self_of_nodup {β : Type} :
    ∀ l : List (String × β), (l.map Prod.fst).Nodup →
      ∀ kv ∈ l, alookup kv.1 l = some kv.2 := by
  intro l
  induction l with
  | nil => intro _ kv h; exact absurd h (List.not_mem_nil kv)
  | cons hd t ih =>
    intro hnd kv hkv
    obtain ⟨k0, v0⟩ := hd
    rw [List.map_cons, List.nodup_cons] at hnd
    rcases List.mem_cons.mp hkv with h1 | h2
    · subst h1
      rw [alookup_cons, if_pos rfl]
    · have hne : kv.1 ≠ k0 := by
        intro he
        apply hnd.1
        rw [← he]
        exact List.mem_map.mpr ⟨kv, h2, rfl⟩
      rw [alookup_cons, if_neg hne]
      exact ih hnd.2 kv h2

theorem alookup_map_self {β : Type} (f : String → β) (a : String) :
    ∀ l : List String, a ∈ l → alookup a (l.map (fun x => (x, f x))) = some (f a) := by
  intro l
  induction l with
  | nil => intro h; exact absurd h (List.not_mem_nil a)
  | cons hd t ih =>
    intro h
    rw [List.map_cons, alookup_cons]
    by_cases hk : a = hd
    · rw [if_pos hk, hk]
    · rw [if_neg hk]
      exact ih (by rcases List.mem_cons.mp h with h1 | h2; exact absurd h1 hk; exact h2)

theorem bumpUpd_lookup_ne (ident a : String) (pc : Int) (hne : a ≠ ident) :
    ∀ m : List (String × ListedValue), alookup a (bumpUpd m ident pc) = alookup a m := by
  intro m
  induction m with
  | nil => rfl
  | cons hd t ih =>
    obtain ⟨k2, u⟩ := hd
    unfold bumpUpd
    by_cases h2 : k2 = ident
    · rw [if_pos h2, alookup_cons, alookup_cons]
      have h3 : a ≠ k2 := fun he => hne (he.trans h2)
      rw [if_neg h3, if_neg h3]
      exact ih
    · rw [if_neg h2, alookup_cons, alookup_cons]
      by_cases h3 : a = k2
      · rw [if_pos h3, if_pos h3]
      · rw [if_neg h3, if_neg h3]
        exact ih

theorem bumpUpd_lookup_self (ident : String) (pc : Int) :
    ∀ (m : List (String × ListedValue)) (e : ListedValue), alookup ident m = some e →
      alookup ident (bumpUpd m ident pc) = some { e with count := e.count + pc } := by
  intro m
  induction m with
  | nil => intro e h; exact absurd h (by simp [alookup])
  | cons hd t ih =>
    intro e h
    obtain ⟨k2, u⟩ := hd
    rw [alookup_cons] at h
    unfold bumpUpd
    by_cases h2 : ident = k2
    · rw [if_pos h2] at h
      rw [if_pos h2.symm, alookup_cons, if_pos h2]
      injection h with h3
      rw [h3]
    · rw [if_neg h2] at h
      rw [if_neg (fun he => h2 he.symm), alookup_cons, if_neg h2]
      exact ih e h

theorem bumpUpd_keys (ident : String) (pc : Int) :
    ∀ m : List (String × ListedValue), (bumpUpd m ident pc).map Prod.fst = m.map Prod.fst := by
  intro m
  induction m with
  | nil => rfl
  | cons hd t ih =>
    obtain ⟨k2, u⟩ := hd
    unfold bumpUpd
    by_cases h2 : k2 = ident
    · rw [if_pos h2, List.map_cons, List.map_cons, ih]
    · rw [if_neg h2, List.map_cons, List.map_cons, ih]

theorem bump_lookup_ne (m : List (String × ListedValue)) (ident a : String)
    (nv : ListedValue) (pc : Int) (hne : a ≠ ident) :
    alookup a (bumpEntry m ident nv pc) = alookup a m := by
  unfold bumpEntry
  cases h : alookup ident m with
  | some e => exact bumpUpd_lookup_ne ident a pc hne m
  | none => exact alookup_append_ne a ident _ hne m

theorem bump_lookup_self_some (m : List (String × ListedValue)) (ident : String)
    (nv e : ListedValue) (pc : Int) (h : alookup ident m = some e) :
    alookup ident (bumpEntry m ident nv pc) =
      some { e with count := e.count + pc } := by
  unfold bumpEntry
  rw [h]
  exact bumpUpd_lookup_self ident pc m e h

theorem bump_lookup_self_none (m : List (String × ListedValue)) (ident : String)
    (nv : ListedValue) (pc : Int) (h : alookup ident m = none) :
    alookup ident (bumpEntry m ident nv pc) = some { nv with count := pc } := by
  unfold bumpEntry
  rw [h]
  exact alookup_append_of_none ident _ m h

theorem bump_keys (m : List (String × ListedValue)) (ident : String) (nv : ListedValue)
    (pc : Int) :
    (bumpEntry m ident nv pc).map Prod.fst =
      if (alookup ident m).isSome then m.map Prod.fst else m.map Prod.fst ++ [ident] := by
  unfold bumpEntry
  cases h : alookup ident m with
  | some e =>
    simp only [Option.isSome_some, if_pos]
    exact bumpUpd_keys ident pc m
  | none => simp

theorem alookup_tmpInsert (tmp : List (String × List (String × ListedValue)))
    (colKey ident a : String) (nv : ListedValue) (pc : Int) :
    (alookup a (tmpInsert tmp colKey ident nv pc)).getD [] =
      if a = colKey then bumpEntry ((alookup a tmp).getD []) ident nv pc
      else (alookup a tmp).getD [] := by
  unfold tmpInsert
  cases h : alookup colKey tmp with
  | some m =>
    by_cases hk : a = colKey
    · subst hk
      rw [if_pos rfl, alookup_assocReplace_self a _ tmp (by rw [h]; rfl), h]
      rfl
    · rw [if_neg hk, alookup_assocReplace_ne a colKey _ hk tmp]
  | none =>
    by_cases hk : a = colKey
    · subst hk
      rw [if_pos rfl, alookup_append_of_none a _ tmp h, h]
      rfl
    · rw [if_neg hk, alookup_append_ne a colKey _ hk tmp]

theorem processAttr_ok (searchAttrs : List String) (bibLabel bibID : String) (r : ResultRow)
    (st : AggState) (kv : String × String) (hk : kv.1 ∈ searchAttrs) :
    processAttr searchAttrs bibLabel bibID r st kv = Except.ok { st with
      tmp := tmpInsert st.tmp kv.1
        (if kv.1 = bibLabel then (alookup bibID r.attrs).getD "" else kv.2)
        { id := (if kv.1 = bibLabel then (alookup bibID r.attrs).getD "" else kv.2),
          shortLabel := shortenVal kv.2 shortLabelMaxLength, label := kv.2,
          count := 0, grouping := 1 } r.poscount } := by
  unfold processAttr
  simp only [ExportKey]
  rw [if_pos hk]

theorem processAttr_fold (searchAttrs : List String) (bibLabel bibID attr : String)
    (r : ResultRow) :
    ∀ (l : List (String × String)) (st : AggState),
    (∀ kv ∈ l, kv.1 ∈ searchAttrs) →
    (∀ kv ∈ l, alookup kv.1 r.attrs = some kv.2) →
    (l.map Prod.fst).Nodup →
    ∃ st2, efoldl (processAttr searchAttrs bibLabel bibID r) st l = Except.ok st2
      ∧ st2.poscount = st.poscount
      ∧ (alookup attr st2.tmp).getD [] =
          (match alookup attr l with
           | none => (alookup attr st.tmp).getD []
           | some dv =>
             bumpEntry ((alookup attr st.tmp).getD [])
               (if attr = bibLabel then (alookup bibID r.attrs).getD "" else dv)
               { id := (if attr = bibLabel then (alookup bibID r.attrs).getD "" else dv),
                 shortLabel := shortenVal dv shortLabelMaxLength, label := dv,
                 count := 0, grouping := 1 }
               r.poscount) := by
  intro l
  induction l with
  | nil =>
    intro st _ _ _
    exact ⟨st, rfl, rfl, rfl⟩
  | cons hd t ih =>
    intro st hk hsub hnd
    obtain ⟨k0, v0⟩ := hd
    have hk0 : k0 ∈ searchAttrs := hk (k0, v0) (List.mem_cons_self _ _)
    rw [efoldl_cons, processAttr_ok searchAttrs bibLabel bibID r st (k0, v0) hk0]
    obtain ⟨st2, hfold, hpos, htmp⟩ := ih
      { st with
          tmp := tmpInsert st.tmp k0
            (if k0 = bibLabel then (alookup bibID r.attrs).getD "" else v0)
            { id := (if k0 = bibLabel then (alookup bibID r.attrs).getD "" else v0),
              shortLabel := shortenVal v0 shortLabelMaxLength, label := v0,
              count := 0, grouping := 1 } r.poscount }
      (fun kv h => hk kv (List.mem_cons_of_mem _ h))
      (fun kv h => hsub kv (List.mem_cons_of_mem _ h))
      (by rw [List.map_cons, List.nodup_cons] at hnd; exact hnd.2)
    refine ⟨st2, hfold, hpos, ?_⟩
    by_cases hak : attr = k0
    · subst hak
      have hnotin : attr ∉ t.map Prod.fst := by
        rw [List.map_cons, List.nodup_cons] at hnd
        exact hnd.1
      have hnone : alookup attr t = none := alookup_eq_none_of_not_mem attr t hnotin
      rw [htmp, hnone, alookup_cons, if_pos rfl]
      dsimp only
      rw [alookup_tmpInsert, if_pos rfl]
    · rw [htmp, alookup_cons, if_neg hak]
      have hbase : (alookup attr (tmpInsert st.tmp k0
          (if k0 = bibLabel then (alookup bibID r.attrs).getD "" else v0)
          { id := (if k0 = bibLabel then (alookup bibID r.attrs).getD "" else v0),
            shortLabel := shortenVal v0 shortLabelMaxLength, label := v0,
            count := 0, grouping := 1 } r.poscount)).getD [] =
          (alookup attr st.tmp).getD [] := by
        rw [alookup_tmpInsert, if_neg hak]
      cases halo : alookup attr t with
      | none => exact hbase
      | some dv => rw [hbase]

theorem processRow_ok (searchAttrs : List String) (bibLabel bibID attr : String)
    (st : AggState) (r : ResultRow)
    (hk : ∀ kv ∈ r.attrs, kv.1 ∈ searchAttrs)
    (hnd : (r.attrs.map Prod.fst).Nodup) :
    ∃ st2, processRow searchAttrs bibLabel bibID st r = Except.ok st2
      ∧ st2.poscount = st.poscount + r.poscount
      ∧ (alookup attr st2.tmp).getD [] =
          perAttrStep bibLabel bibID attr ((alookup attr st.tmp).getD []) r := by
  unfold processRow
  obtain ⟨st2, hfold, hpos, htmp⟩ := processAttr_fold searchAttrs bibLabel bibID attr r r.attrs
    { st with poscount := st.poscount + r.poscount } hk
    (alookup_self_of_nodup r.attrs hnd) hnd
  refine ⟨st2, hfold, hpos, ?_⟩
  unfold perAttrStep
  cases halo : alookup attr r.attrs with
  | none => rw [htmp, halo]
  | some dv => rw [htmp, halo]

theorem perAttrFold_cons (bibLabel bibID attr : String) (m : List (String × ListedValue))
    (r : ResultRow) (rows : List ResultRow) :
    perAttrFold bibLabel bibID attr m (r :: rows) =
      perAttrFold bibLabel bibID attr (perAttrStep bibLabel bibID attr m r) rows := rfl

theorem sumPoscounts_cons (r : ResultRow) (rows : List ResultRow) :
    sumPoscounts (r :: rows) = r.poscount + sumPoscounts rows := by
  simp [sumPoscounts]

theorem aggRows_ok (searchAttrs : List String) (bibLabel bibID attr : String) :
    ∀ (rows : List ResultRow) (st : AggState),
    (∀ r ∈ rows, ∀ kv ∈ r.attrs, kv.1 ∈ searchAttrs) →
    (∀ r ∈ rows, (r.attrs.map Prod.fst).Nodup) →
    ∃ st2, efoldl (processRow searchAttrs bibLabel bibID) st rows = Except.ok st2
      ∧ st2.poscount = st.poscount + sumPoscounts rows
      ∧ (alookup attr st2.tmp).getD [] =
          perAttrFold bibLabel bibID attr ((alookup attr st.tmp).getD []) rows := by
  intro rows
  induction rows with
  | nil =>
    intro st _ _
    exact ⟨st, rfl, by simp [sumPoscounts], rfl⟩
  | cons r rows ih =>
    intro st hk hnd
    obtain ⟨st1, hrow, hpos1, htmp1⟩ := processRow_ok searchAttrs bibLabel bibID attr st r
      (hk r (List.mem_cons_self _ _)) (hnd r (List.mem_cons_self _ _))
    rw [efoldl_cons, hrow]
    obtain ⟨st2, hfold, hpos2, htmp2⟩ := ih st1
      (fun r2 h => hk r2 (List.mem_cons_of_mem _ h))
      (fun r2 h => hnd r2 (List.mem_cons_of_mem _ h))
    refine ⟨st2, hfold, ?_, ?_⟩
    · rw [hpos2, hpos1, sumPoscounts_cons]
      omega
    · rw [htmp2, htmp1, perAttrFold_cons]

/-! ## Spec-side cons lemmas and the lookup characterization of the
accumulation fold -/

theorem specCountOf_cons (bibLabel bibID attr v : String) (r : ResultRow)
    (rows : List ResultRow) :
    specCountOf bibLabel bibID attr v (r :: rows) =
      (if rowIdentOf bibLabel bibID attr r = some v then r.poscount else 0)
        + specCountOf bibLabel bibID attr v rows := by
  unfold specCountOf
  rw [List.filter_cons]
  by_cases h : rowIdentOf bibLabel bibID attr r = some v
  · simp [h]
  · simp [h]

theorem hasIdent_cons (bibLabel bibID attr v : String) (r : ResultRow)
    (rows : List ResultRow) :
    hasIdent bibLabel bibID attr v (r :: rows) =
      (decide (rowIdentOf bibLabel bibID attr r = some v)
        || hasIdent bibLabel bibID attr v rows) := by
  simp [hasIdent]

theorem firstValFor_cons (bibLabel bibID attr v : String) (r : ResultRow)
    (rows : List ResultRow) :
    firstValFor bibLabel bibID attr v (r :: rows) =
      if rowIdentOf bibLabel bibID attr r = some v then alookup attr r.attrs
      else firstValFor bibLabel bibID attr v rows := by
  unfold firstValFor
  by_cases h : rowIdentOf bibLabel bibID attr r = some v
  · rw [if_pos h, List.find?_cons_of_pos _ (by simpa using h)]
    rfl
  · rw [if_neg h, List.find?_cons_of_neg _ (by simpa using h)]

theorem freshSpecEntry_cons_rel (bibLabel bibID attr v : String) (r : ResultRow)
    (rows : List ResultRow) (hrel : rowIdentOf bibLabel bibID attr r = some v) :
    freshSpecEntry bibLabel bibID attr v (r :: rows) =
      { id := v,
        shortLabel := shortenVal ((alookup attr r.attrs).getD "") shortLabelMaxLength,
        label := (alookup attr r.attrs).getD "",
        count := r.poscount + specCountOf bibLabel bibID attr v rows, grouping := 1 } := by
  unfold freshSpecEntry
  rw [firstValFor_cons, if_pos hrel, specCountOf_cons, if_pos hrel]

theorem freshSpecEntry_cons_ne (bibLabel bibID attr v : String) (r : ResultRow)
    (rows : List ResultRow) (hrel : ¬rowIdentOf bibLabel bibID attr r = some v) :
    freshSpecEntry bibLabel bibID attr v (r :: rows) =
      freshSpecEntry bibLabel bibID attr v rows := by
  unfold freshSpecEntry
  rw [firstValFor_cons, if_neg hrel, specCountOf_cons, if_neg hrel, zero_add]

theorem perAttrStep_lookup (bibLabel bibID attr v : String)
    (m : List (String × ListedValue)) (r : ResultRow) :
    alookup v (perAttrStep bibLabel bibID attr m r) =
      if rowIdentOf bibLabel bibID attr r = some v then
        (match alookup v m with
         | some e => some { e with count := e.count + r.poscount }
         | none =>
           some { id := v,
                  shortLabel := shortenVal ((alookup attr r.attrs).getD "") shortLabelMaxLength,
                  label := (alookup attr r.attrs).getD "",
                  count := r.poscount, grouping := 1 })
      else alookup v m := by
  unfold perAttrStep rowIdentOf
  cases halo : alookup attr r.attrs with
  | none =>
    rw [if_neg (by simp)]
  | some dv =>
    dsimp only
    by_cases hv : (if attr = bibLabel then (alookup bibID r.attrs).getD "" else dv) = v
    · rw [hv, if_pos rfl]
      cases hm : alookup v m with
      | some e =>
        rw [bump_lookup_self_some m v _ e r.poscount hm]
      | none =>
        rw [bump_lookup_self_none m v _ r.poscount hm]
        rfl
    · have hcond : ¬(some (if attr = bibLabel then (alookup bibID r.attrs).getD "" else dv)
          = some v) := by simpa using hv
      rw [if_neg hcond]
      exact bump_lookup_ne m _ v _ r.poscount (fun h => hv h.symm)

theorem perAttrFold_lookup (bibLabel bibID attr v : String) :
    ∀ (rows : List ResultRow) (m : List (String × ListedValue)),
    alookup v (perAttrFold bibLabel bibID attr m rows) =
      (match alookup v m with
       | some e => some { e with count := e.count + specCountOf bibLabel bibID attr v rows }
       | none =>
         if hasIdent bibLabel bibID attr v rows then
           some (freshSpecEntry bibLabel bibID attr v rows)
         else none) := by
  intro rows
  induction rows with
  | nil =>
    intro m
    cases h : alookup v m with
    | none => rw [show perAttrFold bibLabel bibID attr m [] = m from rfl, h]; rfl
    | some e =>
      rw [show perAttrFold bibLabel bibID attr m [] = m from rfl, h]
      dsimp only
      rw [show specCountOf bibLabel bibID attr v [] = 0 from rfl, Int.add_zero]
  | cons r rows ih =>
    intro m
    rw [perAttrFold_cons, ih, perAttrStep_lookup]
    by_cases hrel : rowIdentOf bibLabel bibID attr r = some v
    · rw [if_pos hrel]
      cases hm : alookup v m with
      | some e =>
        dsimp only
        rw [specCountOf_cons, if_pos hrel, ← Int.add_assoc]
      | none =>
        dsimp only
        have hd : decide (rowIdentOf bibLabel bibID attr r = some v) = true := by
          simpa using hrel
        rw [hasIdent_cons, hd, Bool.true_or, if_pos rfl,
          freshSpecEntry_cons_rel bibLabel bibID attr v r rows hrel]
    · rw [if_neg hrel]
      cases hm : alookup v m with
      | some e =>
        dsimp only
        rw [specCountOf_cons, if_neg hrel, Int.zero_add]
      | none =>
        dsimp only
        have hd : decide (rowIdentOf bibLabel bibID attr r = some v) = false := by
          simpa using hrel
        rw [hasIdent_cons, hd, Bool.false_or,
          freshSpecEntry_cons_ne bibLabel bibID attr v r rows hrel]

theorem perAttrStep_keys (bibLabel bibID attr : String) (m : List (String × ListedValue))
    (r : ResultRow) :
    (perAttrStep bibLabel bibID attr m r).map Prod.fst =
      identStep bibLabel bibID attr (m.map Prod.fst) r := by
  unfold perAttrStep identStep rowIdentOf
  cases halo : alookup attr r.attrs with
  | none => rfl
  | some dv =>
    dsimp only
    rw [bump_keys]
    by_cases hmem : (if attr = bibLabel then (alookup bibID r.attrs).getD "" else dv)
        ∈ m.map Prod.fst
    · rw [if_pos ((alookup_isSome_iff_mem _ m).mpr hmem), if_pos hmem]
    · rw [if_neg (fun hs => hmem ((alookup_isSome_iff_mem _ m).mp hs)), if_neg hmem]

theorem perAttrFold_keys (bibLabel bibID attr : String) :
    ∀ (rows : List ResultRow) (m : List (String × ListedValue)),
    (perAttrFold bibLabel bibID attr m rows).map Prod.fst =
      rows.foldl (identStep bibLabel bibID attr) (m.map Prod.fst) := by
  intro rows
  induction rows with
  | nil => intro m; rfl
  | cons r rows ih =>
    intro m
    rw [perAttrFold_cons, ih, perAttrStep_keys, List.foldl_cons]

theorem identStep_nodup (bibLabel bibID attr : String) (acc : List String) (r : ResultRow)
    (h : acc.Nodup) : (identStep bibLabel bibID attr acc r).Nodup := by
  unfold identStep
  cases rowIdentOf bibLabel bibID attr r with
  | none => exact h
  | some v =>
    dsimp only
    by_cases hv : v ∈ acc
    · rw [if_pos hv]; exact h
    · rw [if_neg hv, ← List.concat_eq_append]
      exact List.Nodup.concat hv h

theorem identsFrom_nodup (bibLabel bibID attr : String) :
    ∀ (rows : List ResultRow) (acc : List String), acc.Nodup →
      (rows.foldl (identStep bibLabel bibID attr) acc).Nodup := by
  intro rows
  induction rows with
  | nil => intro acc h; exact h
  | cons r rows ih =>
    intro acc h
    rw [List.foldl_cons]
    exact ih _ (identStep_nodup bibLabel bibID attr acc r h)

theorem identsOf_nodup (bibLabel bibID attr : String) (rows : List ResultRow) :
    (identsOf bibLabel bibID attr rows).Nodup :=
  identsFrom_nodup bibLabel bibID attr rows [] List.nodup_nil

theorem bumpUpd_id_inv (ident : String) (pc : Int) :
    ∀ m : List (String × ListedValue), (∀ kv ∈ m, (kv : String × ListedValue).2.id = kv.1) →
      ∀ kv ∈ bumpUpd m ident pc, (kv : String × ListedValue).2.id = kv.1 := by
  intro m
  induction m with
  | nil => intro _ kv h; exact absurd h (List.not_mem_nil kv)
  | cons hd t ih =>
    intro hinv kv hkv
    obtain ⟨k0, e0⟩ := hd
    unfold bumpUpd at hkv
    by_cases h0 : k0 = ident
    · rw [if_pos h0] at hkv
      rcases List.mem_cons.mp hkv with h1 | h2
      · rw [h1]
        exact hinv (k0, e0) (List.mem_cons_self _ _)
      · exact ih (fun kv2 hk2 => hinv kv2 (List.mem_cons_of_mem _ hk2)) kv h2
    · rw [if_neg h0] at hkv
      rcases List.mem_cons.mp hkv with h1 | h2
      · rw [h1]
        exact hinv (k0, e0) (List.mem_cons_self _ _)
      · exact ih (fun kv2 hk2 => hinv kv2 (List.mem_cons_of_mem _ hk2)) kv h2

theorem bumpEntry_id_inv (m : List (String × ListedValue)) (ident : String)
    (nv : ListedValue) (pc : Int) (hnv : nv.id = ident)
    (hinv : ∀ kv ∈ m, (kv : String × ListedValue).2.id = kv.1) :
    ∀ kv ∈ bumpEntry m ident nv pc, (kv : String × ListedValue).2.id = kv.1 := by
  intro kv hkv
  unfold bumpEntry at hkv
  cases h : alookup ident m with
  | some e =>
    rw [h] at hkv
    exact bumpUpd_id_inv ident pc m hinv kv hkv
  | none =>
    rw [h] at hkv
    rcases List.mem_append.mp hkv with h1 | h2
    · exact hinv kv h1
    · rcases List.mem_singleton.mp h2 with h3
      rw [h3]
      exact hnv

theorem perAttrStep_id_inv (bibLabel bibID attr : String) (m : List (String × ListedValue))
    (r : ResultRow) (hinv : ∀ kv ∈ m, (kv : String × ListedValue).2.id = kv.1) :
    ∀ kv ∈ perAttrStep bibLabel bibID attr m r, (kv : String × ListedValue).2.id = kv.1 := by
  unfold perAttrStep
  cases halo : alookup attr r.attrs with
  | none => exact hinv
  | some dv =>
    dsimp only
    exact bumpEntry_id_inv m _ _ r.poscount rfl hinv

theorem perAttrFold_id_inv (bibLabel bibID attr : String) :
    ∀ (rows : List ResultRow) (m : List (String × ListedValue)),
    (∀ kv ∈ m, (kv : String × ListedValue).2.id = kv.1) →
    ∀ kv ∈ perAttrFold bibLabel bibID attr m rows, (kv : String × ListedValue).2.id = kv.1 := by
  intro rows
  induction rows with
  | nil => intro m hinv; exact hinv
  | cons r rows ih =>
    intro m hinv
    rw [perAttrFold_cons]
    exact ih _ (perAttrStep_id_inv bibLabel bibID attr m r hinv)

theorem findById_eq_alookup (v : String) :
    ∀ m : List (String × ListedValue),
    (∀ kv ∈ m, (kv : String × ListedValue).2.id = kv.1) →
    findById (m.map Prod.snd) v = alookup v m := by
  intro m
  induction m with
  | nil => intro _; rfl
  | cons hd t ih =>
    intro hinv
    obtain ⟨k0, e0⟩ := hd
    have hid : e0.id = k0 := hinv (k0, e0) (List.mem_cons_self _ _)
    rw [List.map_cons]
    by_cases hk : k0 = v
    · rw [show findById (e0 :: t.map Prod.snd) v = some e0 by
        unfold findById
        exact List.find?_cons_of_pos _ (by simp [hid, hk])]
      rw [alookup_cons, if_pos hk.symm]
    · rw [show findById (e0 :: t.map Prod.snd) v = findById (t.map Prod.snd) v by
        unfold findById
        exact List.find?_cons_of_neg _ (by simp [hid, hk])]
      rw [alookup_cons, if_neg (fun h => hk h.symm)]
      exact ih (fun kv hk2 => hinv kv (List.mem_cons_of_mem _ hk2))

theorem map_snd_id_eq_map_fst (m : List (String × ListedValue))
    (hinv : ∀ kv ∈ m, (kv : String × ListedValue).2.id = kv.1) :
    (m.map Prod.snd).map (fun e => e.id) = m.map Prod.fst := by
  rw [List.map_map]
  exact List.map_congr_left (fun kv hkv => hinv kv hkv)

theorem groupBibItems_poscount (a : QueryAns) (bibLabel : String) :
    (groupBibItems a bibLabel).poscount = a.poscount := by
  unfold groupBibItems
  cases h : alookup bibLabel a.attrValues with
  | none => rfl
  | some x =>
    cases x with
    | listOf entries => rfl
    | cnt n => rfl

theorem applyBibGrouping_poscount (flag : Int) (bibLabel : String) (a : QueryAns) :
    (applyBibGrouping flag bibLabel a).poscount = a.poscount := by
  unfold applyBibGrouping
  by_cases h : flag > 0
  · rw [if_pos h]
    exact groupBibItems_poscount a bibLabel
  · rw [if_neg h]

theorem ExportAttrValues_poscount (a : QueryAns) (expandAttrs : List String) (maxSize : Nat) :
    (ExportAttrValues a expandAttrs maxSize).poscount = a.poscount := rfl

/-- C8: over any row stream whose rows carry values for the search attributes,
the aggregation core returns a total position count equal to the sum of all
row position counts — preserved unchanged through the bibliography grouping
and the export truncation steps — and the value list of an attribute holds
exactly one entry per distinct value identity, in first-occurrence order,
whose count is the sum of the position counts of the rows sharing that
identity and whose grouping is 1. -/
theorem C8_aggregation (searchAttrs : List String) (bibLabel bibID attr v : String)
    (rows : List ResultRow) (expandAttrs : List String) (maxSize : Nat) (flag : Int)
    (hkeys : ∀ r ∈ rows, ∀ kv ∈ r.attrs, kv.1 ∈ searchAttrs)
    (hnd : ∀ r ∈ rows, (r.attrs.map Prod.fst).Nodup)
    (ha : attr ∈ searchAttrs)
    (hv : hasIdent bibLabel bibID attr v rows = true) :
    ∃ ansOk, getAttrValuesAgg searchAttrs bibLabel bibID rows = Except.ok ansOk
      ∧ ansOk.poscount = sumPoscounts rows
      ∧ (ExportAttrValues (applyBibGrouping flag bibLabel ansOk) expandAttrs maxSize).poscount
          = sumPoscounts rows
      ∧ (attrListOf ansOk attr).map (fun e => e.id) = identsOf bibLabel bibID attr rows
      ∧ (identsOf bibLabel bibID attr rows).Nodup
      ∧ (findById (attrListOf ansOk attr) v).map (fun e => e.count)
          = some (specCountOf bibLabel bibID attr v rows)
      ∧ (findById (attrListOf ansOk attr) v).map (fun e => e.grouping) = some 1 := by
  obtain ⟨st2, hfold, hpos, htmp⟩ :=
    aggRows_ok searchAttrs bibLabel bibID attr rows { poscount := 0, tmp := [] } hkeys hnd
  have hid_inv : ∀ kv ∈ perAttrFold bibLabel bibID attr [] rows,
      (kv : String × ListedValue).2.id = kv.1 :=
    perAttrFold_id_inv bibLabel bibID attr rows []
      (fun kv h => absurd h (List.not_mem_nil kv))
  have htmp2 : (alookup attr st2.tmp).getD [] = perAttrFold bibLabel bibID attr [] rows := htmp
  refine ⟨{ poscount := st2.poscount,
            attrValues := searchAttrs.map
              (fun a => (a, AttrAccum.listOf (((alookup a st2.tmp).getD []).map Prod.snd))) },
    ?_, ?_, ?_, ?_, identsOf_nodup bibLabel bibID attr rows, ?_, ?_⟩
  · unfold getAttrValuesAgg
    rw [hfold]
  · show st2.poscount = sumPoscounts rows
    rw [hpos, Int.zero_add]
  · rw [ExportAttrValues_poscount, applyBibGrouping_poscount]
    show st2.poscount = sumPoscounts rows
    rw [hpos, Int.zero_add]
  · have hlist : attrListOf
        { poscount := st2.poscount,
          attrValues := searchAttrs.map
            (fun a => (a, AttrAccum.listOf (((alookup a st2.tmp).getD []).map Prod.snd))) }
        attr = ((alookup attr st2.tmp).getD []).map Prod.snd := by
      unfold attrListOf
      rw [alookup_map_self _ attr searchAttrs ha]
    rw [hlist, htmp2, map_snd_id_eq_map_fst _ hid_inv, perAttrFold_keys]
    rfl
  · have hlist : attrListOf
        { poscount := st2.poscount,
          attrValues := searchAttrs.map
            (fun a => (a, AttrAccum.listOf (((alookup a st2.tmp).getD []).map Prod.snd))) }
        attr = ((alookup attr st2.tmp).getD []).map Prod.snd := by
      unfold attrListOf
      rw [alookup_map_self _ attr searchAttrs ha]
    rw [hlist, htmp2, findById_eq_alookup v _ hid_inv, perAttrFold_lookup]
    rw [hv, if_pos rfl]
    rfl
  · have hlist : attrListOf
        { poscount := st2.poscount,
          attrValues := searchAttrs.map
            (fun a => (a, AttrAccum.listOf (((alookup a st2.tmp).getD []).map Prod.snd))) }
        attr = ((alookup attr st2.tmp).getD []).map Prod.snd := by
      unfold attrListOf
      rw [alookup_map_self _ attr searchAttrs ha]
    rw [hlist, htmp2, findById_eq_alookup v _ hid_inv, perAttrFold_lookup]
    rw [hv, if_pos rfl]
    rfl

/-- C8 witness: the aggregation example of the spec — rows with positions 3
and 2 for value x and 5 for value y of attribute a. -/
theorem C8_aggregation_witness :
    ∃ ansOk, getAttrValuesAgg ["a"] "" "" c8Rows = Except.ok ansOk
      ∧ ansOk.poscount = sumPoscounts c8Rows
      ∧ (ExportAttrValues (applyBibGrouping 0 "" ansOk) ["a"] 30).poscount = sumPoscounts c8Rows
      ∧ (attrListOf ansOk "a").map (fun e => e.id) = identsOf "" "" "a" c8Rows
      ∧ (identsOf "" "" "a" c8Rows).Nodup
      ∧ (findById (attrListOf ansOk "a") "x").map (fun e => e.count)
          = some (specCountOf "" "" "a" "x" c8Rows)
      ∧ (findById (attrListOf ansOk "a") "x").map (fun e => e.grouping) = some 1 :=
  C8_aggregation ["a"] "" "" "a" "x" c8Rows ["a"] 30 0
    (by decide) (by decide) (by decide) (by decide)

end Masm
